import Mathlib

/-!
Verification development for an Instagram-downloader chat bot (`main.py`).

The source is shallowly embedded: each Python function that the specification
talks about becomes an executable Lean definition over explicit state
(file contents are `Option` values, the media provider is a lookup oracle,
exceptions are `Except`/explicit failure flags).  The regular expressions of
the source are compiled by hand into character-list matchers, keeping the
exact pattern text of the source, including its doubled backslashes: the raw
Python string `r"instagram\\.com"` denotes the regex `instagram\\.com`, i.e.
the literal text `instagram`, one literal backslash, any single character
except newline, then `com`.
-/

set_option autoImplicit false

namespace InstaBot

/-! ## Character-list helpers for the regex embedding -/

/-- Consume the literal `lit` from the front of `s`; `none` when `s` does not
start with `lit`.  Building block for compiling the source's regexes. -/
def dropLit : List Char → List Char → Option (List Char)
  | [], s => some s
  | _ :: _, [] => none
  | p :: ps, c :: cs => if p = c then dropLit ps cs else none

/-- The regex metacharacter `.` in Python `re` (no DOTALL): any character
except a newline. -/
def reAnyChar (c : Char) : Bool := c ≠ '\n'

/-- Substring containment (Python's `pat in s`), used both for the
`"video" in media_url` test of the relay and to state what a URL contains. -/
def containsLit (pat : List Char) : List Char → Bool
  | [] => (dropLit pat []).isSome
  | c :: rest => (dropLit pat (c :: rest)).isSome || containsLit pat rest

/-! ## URL Resolver: `is_valid_instagram_url` and `extract_shortcode`

Source (`main.py` lines 94-99):
```
def extract_shortcode(instagram_post):
    match = re.search(r"instagram\\.com/(?:p|reel|tv)/([^/?#&]+)", instagram_post)
    return match.group(1) if match else None

def is_valid_instagram_url(url):
    return bool(re.match(r"https?://(www\\.)?instagram\\.com/(p|reel|tv)/", url))
```
Both raw strings contain a doubled backslash, so the regexes demand a literal
backslash followed by an arbitrary character where a dot was presumably
intended.  The embedding compiles the patterns exactly as written. -/

/-- One of the alternatives `(p|reel|tv)` followed by `/`, as a recogniser. -/
def tokenSlash (s : List Char) : Bool :=
  (dropLit "p/".data s).isSome || (dropLit "reel/".data s).isSome ||
    (dropLit "tv/".data s).isSome

/-- The tail `instagram\\.com/(p|reel|tv)/` of the validation regex:
`instagram`, a literal backslash, any character but newline, `com/`, then one
of the three section tokens and a slash. -/
def hostTail (s : List Char) : Bool :=
  match dropLit "instagram\\".data s with
  | some (c :: rest) =>
      reAnyChar c &&
        (match dropLit "com/".data rest with
         | some r2 => tokenSlash r2
         | none => false)
  | _ => false

/-- The optional group `(www\\.)?` followed by the host tail; the disjunction
realises the regex engine's backtracking over the optional group. -/
def afterScheme (s : List Char) : Bool :=
  (match s with
   | 'w' :: 'w' :: 'w' :: '\\' :: c :: rest => reAnyChar c && hostTail rest
   | _ => false) || hostTail s

/-- `://` then the rest of the pattern. -/
def schemeRest (s : List Char) : Bool :=
  match dropLit "://".data s with
  | some r => afterScheme r
  | none => false

/-- `is_valid_instagram_url` of the source: anchored match
(`re.match`) of `https?://(www\\.)?instagram\\.com/(p|reel|tv)/`.
The `s?` backtracks: with the `s` consumed first, then without. -/
def is_valid_instagram_url (url : String) : Bool :=
  match dropLit "http".data url.data with
  | none => false
  | some ('s' :: r2) => schemeRest r2 || schemeRest ('s' :: r2)
  | some r1 => schemeRest r1

/-- Separators ending the capture group `[^/?#&]+`. -/
def shortcodeSep (c : Char) : Bool := c = '/' || c = '?' || c = '#' || c = '&'

/-- Try one alternative `tok` of `(?:p|reel|tv)` at `r2`: consume `tok ++ "/"`
then capture the greedy nonempty run `[^/?#&]+`. -/
def groupAt (r2 : List Char) (tok : List Char) : Option (List Char) :=
  match dropLit (tok ++ ['/']) r2 with
  | some r3 =>
      let g := r3.takeWhile (fun c => !shortcodeSep c)
      if g.isEmpty then none else some g
  | none => none

/-- Match the search regex `instagram\\.com/(?:p|reel|tv)/([^/?#&]+)` at the
start of `s`, returning the capture group.  Alternatives are tried in the
regex's order. -/
def matchAt (s : List Char) : Option (List Char) :=
  match dropLit "instagram\\".data s with
  | some (c :: rest) =>
      if reAnyChar c then
        match dropLit "com/".data rest with
        | some r2 =>
            (groupAt r2 "p".data).orElse fun _ =>
              (groupAt r2 "reel".data).orElse fun _ => groupAt r2 "tv".data
        | none => none
      else none
  | _ => none

/-- `re.search`: try the pattern at every position, leftmost first. -/
def searchShortcode : List Char → Option (List Char)
  | [] => none
  | c :: rest => (matchAt (c :: rest)).orElse fun _ => searchShortcode rest

/-- `extract_shortcode` of the source: `re.search` of
`instagram\\.com/(?:p|reel|tv)/([^/?#&]+)` and the first capture group,
`None` when there is no match. -/
def extract_shortcode (instagram_post : String) : Option String :=
  (searchShortcode instagram_post.data).map fun g => ⟨g⟩

/-- C1: the URLs the spec calls supported are all rejected by the code: the
doubled backslash in the raw pattern strings makes the regexes require a
literal backslash in place of the dot of `instagram.com`, so
`is_valid_instagram_url` is `False` and `extract_shortcode` is `None` on
every supported URL shape. -/
theorem valid_url_rejects_all_supported_shapes :
    is_valid_instagram_url "https://instagram.com/p/ABC" = false ∧
    extract_shortcode "https://instagram.com/p/ABC" = none ∧
    is_valid_instagram_url "http://www.instagram.com/reel/XYZ123" = false ∧
    extract_shortcode "http://www.instagram.com/reel/XYZ123" = none ∧
    is_valid_instagram_url "https://instagram.com/tv/Q1" = false ∧
    extract_shortcode "https://instagram.com/tv/Q1" = none := by
  decide

/-- C2: a string that contains none of `instagram.com/p/`,
`instagram.com/reel/`, `instagram.com/tv/` is nevertheless accepted by
`is_valid_instagram_url` (and yields a shortcode), because the buggy pattern
matches `instagram` + backslash + any character + `com` instead of
`instagram.com`. -/
theorem valid_url_accepts_noninstagram_string :
    is_valid_instagram_url "http://instagram\\acom/p/X" = true ∧
    containsLit "instagram.com/p/".data "http://instagram\\acom/p/X".data = false ∧
    containsLit "instagram.com/reel/".data "http://instagram\\acom/p/X".data = false ∧
    containsLit "instagram.com/tv/".data "http://instagram\\acom/p/X".data = false ∧
    extract_shortcode "http://instagram\\acom/p/X" = some "X" := by
  decide

/-! ## `fetch_instagram_data`

Source (`main.py` lines 101-111): extract the shortcode; `None` when there is
none; otherwise `Post.from_shortcode(loader.context, shortcode)` inside a
`try` whose `except` catches every exception and returns `None`; on success
return `post.video_url if post.is_video else post.url`.  The provider is
embedded as a lookup oracle whose exceptions are `Except.error`. -/

/-- The fields of an instaloader `Post` that the source reads.
`video_url` is optional, as in instaloader. -/
structure IGPost where
  is_video : Bool
  video_url : Option String
  url : String
deriving DecidableEq

/-- `fetch_instagram_data`, with `fromShortcode` standing for
`Post.from_shortcode(loader.context, ·)`; a raised lookup exception is an
`Except.error` and is mapped to `none`. -/
def fetch_instagram_data (fromShortcode : String → Except String IGPost)
    (instagram_post : String) : Option String :=
  match extract_shortcode instagram_post with
  | none => none
  | some shortcode =>
      match fromShortcode shortcode with
      | .error _ => none
      | .ok post => if post.is_video then post.video_url else some post.url

/-! ## User activity log: `log_user_data`

Source (`main.py` lines 66-92): build `user_data` from the caller and the
current timestamp; load the stored list; scan it for a record with the same
`user_id` and, if found, overwrite only that record's `timestamp` and `break`;
the loop's `else` (no match) appends the new record; write the list back. -/

/-- One record of `users.log`: the four JSON fields the source writes. -/
structure UserRecord where
  user_id : Int
  username : Option String
  first_name : String
  timestamp : String
deriving DecidableEq

/-- The list transformation performed by `log_user_data`: `ud` is the
`user_data` dict built from the caller (fresh timestamp included).  The first
record with a matching `user_id` gets only its `timestamp` replaced and the
scan stops; when no record matches, `ud` is appended. -/
def log_user_data : List UserRecord → UserRecord → List UserRecord
  | [], ud => [ud]
  | u :: rest, ud =>
      if u.user_id = ud.user_id then
        { u with timestamp := ud.timestamp } :: rest
      else
        u :: log_user_data rest ud

/-- How many records of `users` carry identifier `i`. -/
def countId (users : List UserRecord) (i : Int) : Nat :=
  (users.filter fun u => u.user_id = i).length

theorem log_user_data_mem_id (users : List UserRecord) (ud : UserRecord) :
    ∃ u ∈ log_user_data users ud, u.user_id = ud.user_id := by
  induction users with
  | nil => exact ⟨ud, by simp [log_user_data]⟩
  | cons v rest ih =>
      by_cases h : v.user_id = ud.user_id
      · exact ⟨{ v with timestamp := ud.timestamp }, by simp [log_user_data, h]⟩
      · obtain ⟨u, hu, hid⟩ := ih
        exact ⟨u, by simp [log_user_data, h, hu], hid⟩

theorem log_user_data_length_of_mem (users : List UserRecord) (ud : UserRecord)
    (h : ∃ u ∈ users, u.user_id = ud.user_id) :
    (log_user_data users ud).length = users.length := by
  induction users with
  | nil => simp at h
  | cons v rest ih =>
      by_cases hv : v.user_id = ud.user_id
      · simp [log_user_data, hv]
      · obtain ⟨u, hu, hid⟩ := h
        rcases List.mem_cons.mp hu with rfl | hmem
        · exact absurd hid hv
        · simp [log_user_data, hv, ih ⟨u, hmem, hid⟩]

theorem countId_cons (x : UserRecord) (l : List UserRecord) (i : Int) :
    countId (x :: l) i = (if x.user_id = i then 1 else 0) + countId l i := by
  by_cases h : x.user_id = i <;> simp [countId, List.filter_cons, h, Nat.add_comm]

theorem log_user_data_countId_of_mem (users : List UserRecord) (ud : UserRecord)
    (h : ∃ u ∈ users, u.user_id = ud.user_id) (i : Int) :
    countId (log_user_data users ud) i = countId users i := by
  induction users with
  | nil => simp at h
  | cons v rest ih =>
      by_cases hv : v.user_id = ud.user_id
      · have hstep : log_user_data (v :: rest) ud =
            { v with timestamp := ud.timestamp } :: rest := by
          simp only [log_user_data]
          rw [if_pos hv]
        rw [hstep, countId_cons, countId_cons]
      · have hrest : ∃ u ∈ rest, u.user_id = ud.user_id := by
          obtain ⟨u, hu, hid⟩ := h
          rcases List.mem_cons.mp hu with rfl | hmem
          · exact absurd hid hv
          · exact ⟨u, hmem, hid⟩
        have hstep : log_user_data (v :: rest) ud = v :: log_user_data rest ud := by
          simp only [log_user_data]
          rw [if_neg hv]
        rw [hstep, countId_cons, countId_cons, ih hrest]

/-- C3: recording a user whose identifier is already in the log keeps the
log's length and never increases any identifier's number of occurrences; in
particular a second `log_user_data` call for the same identifier (right after
a first one) leaves the length of the log unchanged. -/
theorem log_user_data_no_duplicate (users : List UserRecord) (ud ud' : UserRecord) :
    ((∃ u ∈ users, u.user_id = ud.user_id) →
      (log_user_data users ud).length = users.length ∧
      ∀ i, countId (log_user_data users ud) i ≤ countId users i) ∧
    (ud'.user_id = ud.user_id →
      (log_user_data (log_user_data users ud) ud').length =
        (log_user_data users ud).length ∧
      ∀ i, countId (log_user_data (log_user_data users ud) ud') i ≤
        countId (log_user_data users ud) i) := by
  constructor
  · intro h
    exact ⟨log_user_data_length_of_mem users ud h,
      fun i => (log_user_data_countId_of_mem users ud h i).le⟩
  · intro h
    obtain ⟨u, hu, hid⟩ := log_user_data_mem_id users ud
    have h' : ∃ u ∈ log_user_data users ud, u.user_id = ud'.user_id :=
      ⟨u, hu, by rw [hid, h]⟩
    exact ⟨log_user_data_length_of_mem _ ud' h',
      fun i => (log_user_data_countId_of_mem _ ud' h' i).le⟩

/-- C3 witness: a concrete two-record log where the caller is already
present. -/
theorem log_user_data_no_duplicate_witness :
    (log_user_data
        [⟨7, some "ann", "Ann", "2026-10-11 09:00:00"⟩,
         ⟨9, none, "Bo", "2026-10-11 10:00:00"⟩]
        ⟨7, some "ann", "Ann", "2026-10-12 08:00:00"⟩).length = 2 ∧
    ∀ i, countId
        (log_user_data
          [⟨7, some "ann", "Ann", "2026-10-11 09:00:00"⟩,
           ⟨9, none, "Bo", "2026-10-11 10:00:00"⟩]
          ⟨7, some "ann", "Ann", "2026-10-12 08:00:00"⟩) i ≤
      countId
        [⟨7, some "ann", "Ann", "2026-10-11 09:00:00"⟩,
         ⟨9, none, "Bo", "2026-10-11 10:00:00"⟩] i :=
  (log_user_data_no_duplicate
      [⟨7, some "ann", "Ann", "2026-10-11 09:00:00"⟩,
       ⟨9, none, "Bo", "2026-10-11 10:00:00"⟩]
      ⟨7, some "ann", "Ann", "2026-10-12 08:00:00"⟩
      ⟨7, some "ann", "Ann", "2026-10-12 08:00:00"⟩).1
    ⟨⟨7, some "ann", "Ann", "2026-10-11 09:00:00"⟩, by simp, rfl⟩

/-- C10: when the log splits as `pre ++ u :: post` with `u` the first record
carrying the caller's identifier, `log_user_data` rewrites the log to
`pre ++ { u with timestamp := ud.timestamp } :: post`: only that record's
timestamp changes, its other three fields and every other record are written
back unchanged. -/
theorem log_user_data_frame (pre post : List UserRecord) (u ud : UserRecord)
    (hmatch : u.user_id = ud.user_id)
    (hpre : ∀ v ∈ pre, v.user_id ≠ ud.user_id) :
    log_user_data (pre ++ u :: post) ud =
      pre ++ { u with timestamp := ud.timestamp } :: post := by
  induction pre with
  | nil => simp [log_user_data, hmatch]
  | cons v rest ih =>
      have hv : v.user_id ≠ ud.user_id := hpre v (List.mem_cons_self v rest)
      have := ih fun w hw => hpre w (List.mem_cons_of_mem v hw)
      simp [log_user_data, hv, this]

/-- C10 witness: a concrete log where the second record matches and the
caller's current handle differs from the stored one; only the timestamp of
that record changes. -/
theorem log_user_data_frame_witness :
    log_user_data
        ([⟨9, none, "Bo", "2026-10-11 10:00:00"⟩] ++
          ⟨7, some "old_handle", "OldName", "2026-10-11 09:00:00"⟩ ::
            [⟨3, some "cy", "Cy", "2026-10-10 12:00:00"⟩])
        ⟨7, some "new_handle", "NewName", "2026-10-12 08:00:00"⟩ =
      [⟨9, none, "Bo", "2026-10-11 10:00:00"⟩] ++
        ⟨7, some "old_handle", "OldName", "2026-10-12 08:00:00"⟩ ::
          [⟨3, some "cy", "Cy", "2026-10-10 12:00:00"⟩] :=
  log_user_data_frame
    [⟨9, none, "Bo", "2026-10-11 10:00:00"⟩]
    [⟨3, some "cy", "Cy", "2026-10-10 12:00:00"⟩]
    ⟨7, some "old_handle", "OldName", "2026-10-11 09:00:00"⟩
    ⟨7, some "new_handle", "NewName", "2026-10-12 08:00:00"⟩
    rfl (by decide)

/-! ## Admin registry: `get_admin` and `set_admin`

Source (`main.py` lines 55-64): `get_admin` returns the JSON object's
`admin_id` when `admin.json` exists and `None` otherwise; `set_admin(user_id)`
writes `{"admin_id": user_id}` only when the file does not exist.  The file
system is embedded as the optional content of `admin.json`. -/

/-- The JSON object stored in `admin.json`. -/
structure AdminFile where
  admin_id : Int
deriving DecidableEq

/-- `get_admin`, over the optional content of `admin.json`. -/
def get_admin : Option AdminFile → Option Int
  | some f => some f.admin_id
  | none => none

/-- `set_admin`, returning the new content of `admin.json`: the write happens
only when the file is absent. -/
def set_admin (fs : Option AdminFile) (user_id : Int) : Option AdminFile :=
  match fs with
  | some f => some f
  | none => some ⟨user_id⟩

/-- C4: `set_admin` is the identity whenever an admin file exists, and after a
first `set_admin` on an absent file, any sequence of further `set_admin`
calls leaves `get_admin` returning the first caller's identifier. -/
theorem set_admin_first_writer_wins (fs : Option AdminFile) (uid : Int) :
    (fs ≠ none → set_admin fs uid = fs) ∧
    ∀ (uid₀ : Int) (ids : List Int),
      get_admin (ids.foldl set_admin (set_admin none uid₀)) = some uid₀ := by
  constructor
  · intro h
    match fs with
    | some f => rfl
    | none => exact absurd rfl h
  · intro uid₀ ids
    have hstep : ∀ (f : AdminFile) (l : List Int),
        l.foldl set_admin (some f) = some f := by
      intro f l
      induction l with
      | nil => rfl
      | cons x xs ih => simpa [set_admin] using ih
    simp [set_admin, hstep ⟨uid₀⟩ ids, get_admin]

/-- C4 witness: with an existing admin file the call is a no-op, and three
later claimants never displace the first admin. -/
theorem set_admin_first_writer_wins_witness :
    set_admin (some ⟨42⟩) 99 = some ⟨42⟩ ∧
    get_admin ([5, 6, 7].foldl set_admin (set_admin none 42)) = some 42 :=
  ⟨(set_admin_first_writer_wins (some ⟨42⟩) 99).1 (by simp),
    (set_admin_first_writer_wins (some ⟨42⟩) 99).2 42 [5, 6, 7]⟩

/-! ## `list_users`

Source (`main.py` lines 128-156): the handler first denies callers whose
`user.id` differs from `get_admin()` (an integer never equals Python's
`None`, so an absent admin file denies everyone); then reports "no users"
when the log file is absent; otherwise parses every stored timestamp with
`datetime.strptime(·, "%Y-%m-%d %H:%M:%S")` and counts the records whose
`.date()` equals today's date in the Asia/Tashkent timezone (a parse failure
raises into the `except` branch). -/

/-- A calendar date, the result of `.date()` on a parsed timestamp. -/
structure PDate where
  year : Nat
  month : Nat
  day : Nat
deriving DecidableEq

/-- Numeric value of a decimal digit character. -/
def digitVal (c : Char) : Nat := c.toNat - '0'.toNat

/-- The date part of `datetime.strptime(ts, "%Y-%m-%d %H:%M:%S").date()`:
the timestamp must have the exact fixed-width shape `YYYY-MM-DD HH:MM:SS`
with digits in every numeric position, and the first ten characters carry
the date.  (Stored timestamps are produced by `strftime` with the same
format, so the shape check is the part of `strptime` that matters here.) -/
def timestampDate (ts : String) : Option PDate :=
  match ts.data with
  | [y1, y2, y3, y4, '-', m1, m2, '-', d1, d2, ' ',
     h1, h2, ':', n1, n2, ':', s1, s2] =>
      if [y1, y2, y3, y4, m1, m2, d1, d2, h1, h2, n1, n2, s1, s2].all Char.isDigit then
        some ⟨digitVal y1 * 1000 + digitVal y2 * 100 + digitVal y3 * 10 + digitVal y4,
              digitVal m1 * 10 + digitVal m2,
              digitVal d1 * 10 + digitVal d2⟩
      else none
  | _ => none

/-- The comprehension `sum(1 for u in users if strptime(u['timestamp'], ...)
.date() == today)` of the source. -/
def todayCount (users : List UserRecord) (today : PDate) : Nat :=
  (users.filter fun u => timestampDate u.timestamp = some today).length

/-- The permission test of `list_users`: Python's `user.id != get_admin()`
is `True` whenever the admin file is absent, because an `int` never equals
`None`; the handler proceeds only when the test is `False`. -/
def list_users_permits (fs : Option AdminFile) (uid : Int) : Bool :=
  match get_admin fs with
  | some a => uid = a
  | none => false

/-- The reply classes of the `list_users` handler. -/
inductive UsersReply where
  | permissionDenied
  | noUsers
  | listing (total todayTotal : Nat)
  | readError
deriving DecidableEq

/-- The `list_users` handler over the admin file, the optional content of
`users.log`, the caller's identifier and today's Tashkent date: deny, report
an empty log, fail on a malformed timestamp (the `except` branch), or list
the totals. -/
def list_users (fs : Option AdminFile) (log : Option (List UserRecord))
    (uid : Int) (today : PDate) : UsersReply :=
  if list_users_permits fs uid then
    match log with
    | none => .noUsers
    | some users =>
        if users.all fun u => (timestampDate u.timestamp).isSome then
          .listing users.length (todayCount users today)
        else .readError
  else .permissionDenied

/-- C5: for an admin caller and a well-formed log, `list_users` reports
exactly the number of records whose stored date part equals today's date in
the fixed timezone, and a record whose stored date is not today (yesterday's,
in particular) contributes nothing to that count. -/
theorem list_users_today_count (fs : Option AdminFile) (uid : Int)
    (users : List UserRecord) (today : PDate)
    (hAdmin : get_admin fs = some uid)
    (hParse : ∀ u ∈ users, (timestampDate u.timestamp).isSome) :
    list_users fs (some users) uid today =
      .listing users.length
        ((users.filter fun u => timestampDate u.timestamp = some today).length) ∧
    ∀ r : UserRecord, timestampDate r.timestamp ≠ some today →
      todayCount (r :: users) today = todayCount users today := by
  constructor
  · have hperm : list_users_permits fs uid = true := by
      simp [list_users_permits, hAdmin]
    have hall : (users.all fun u => (timestampDate u.timestamp).isSome) = true := by
      simpa [List.all_eq_true] using hParse
    simp [list_users, hperm, hall, todayCount]
  · intro r hr
    simp [todayCount, List.filter_cons, hr]

/-- C5 witness: admin caller, one record stamped today (2026-10-12 in
Tashkent) and one stamped the previous day; the count is 1 and prepending
another yesterday record leaves it at 1. -/
theorem list_users_today_count_witness :
    list_users (some ⟨7⟩)
        (some [⟨1, some "a", "A", "2026-10-12 08:15:00"⟩,
               ⟨2, none, "B", "2026-10-11 23:59:59"⟩]) 7 ⟨2026, 10, 12⟩ =
      .listing 2 1 ∧
    todayCount
        (⟨3, none, "C", "2026-10-11 07:00:00"⟩ ::
          [⟨1, some "a", "A", "2026-10-12 08:15:00"⟩,
           ⟨2, none, "B", "2026-10-11 23:59:59"⟩]) ⟨2026, 10, 12⟩ =
      todayCount
        [⟨1, some "a", "A", "2026-10-12 08:15:00"⟩,
         ⟨2, none, "B", "2026-10-11 23:59:59"⟩] ⟨2026, 10, 12⟩ := by
  have h := list_users_today_count (some ⟨7⟩) 7
    [⟨1, some "a", "A", "2026-10-12 08:15:00"⟩,
     ⟨2, none, "B", "2026-10-11 23:59:59"⟩] ⟨2026, 10, 12⟩
    rfl (by decide)
  exact ⟨by rw [h.1]; decide, h.2 ⟨3, none, "C", "2026-10-11 07:00:00"⟩ (by decide)⟩

/-- C9: with no admin file, `get_admin` is `None`, and the `list_users`
handler denies every caller whatever the stored log, since no integer
identifier equals the absent-admin value. -/
theorem list_users_denied_without_admin (uid : Int)
    (log : Option (List UserRecord)) (today : PDate) :
    get_admin none = none ∧
    list_users none log uid today = .permissionDenied := by
  exact ⟨rfl, by simp [list_users, list_users_permits, get_admin]⟩

/-- C6: `fetch_instagram_data` yields `none` when no shortcode can be
extracted and `none` on every lookup error (the `except` branch), and on a
successful lookup yields the post's direct video URL for a video and its
image URL otherwise; its `Option` result type records that no exception ever
reaches the caller. -/
theorem fetch_instagram_data_resolution (lookup : String → Except String IGPost)
    (s : String) :
    (extract_shortcode s = none → fetch_instagram_data lookup s = none) ∧
    (∀ sc e, extract_shortcode s = some sc → lookup sc = .error e →
      fetch_instagram_data lookup s = none) ∧
    (∀ sc p, extract_shortcode s = some sc → lookup sc = .ok p →
      p.is_video = true → fetch_instagram_data lookup s = p.video_url) ∧
    (∀ sc p, extract_shortcode s = some sc → lookup sc = .ok p →
      p.is_video = false → fetch_instagram_data lookup s = some p.url) := by
  refine ⟨fun h => ?_, fun sc e h1 h2 => ?_,
    fun sc p h1 h2 h3 => ?_, fun sc p h1 h2 h3 => ?_⟩
  · simp [fetch_instagram_data, h]
  · simp [fetch_instagram_data, h1, h2]
  · simp [fetch_instagram_data, h1, h2, h3]
  · simp [fetch_instagram_data, h1, h2, h3]

/-- C6 witness: a URL whose shortcode the buggy regex does extract, against a
provider that reports a video post. -/
theorem fetch_instagram_data_resolution_witness :
    fetch_instagram_data
        (fun _ => .ok ⟨true, some "https://cdn.example/video.mp4", "https://cdn.example/pic.jpg"⟩)
        "https://instagram\\xcom/reel/Sh0rt?utm=1" =
      some "https://cdn.example/video.mp4" :=
  (fetch_instagram_data_resolution
      (fun _ => .ok ⟨true, some "https://cdn.example/video.mp4", "https://cdn.example/pic.jpg"⟩)
      "https://instagram\\xcom/reel/Sh0rt?utm=1").2.2.1 "Sh0rt"
    ⟨true, some "https://cdn.example/video.mp4", "https://cdn.example/pic.jpg"⟩
    (by decide) rfl rfl

/-! ## Media relay: the `try/except/finally` of `download`

Source (`main.py` lines 175-195): pick the temp file name from whether the
string `video` occurs in the media URL; in a `try` block fetch the URL
(`requests.get`), stream it to the temp file (the `open(file_name, "wb")`
creates the file), reopen it and send it with `reply_video` when the name
ends in `.mp4`, else `reply_photo`, both with the fixed caption, then delete
the progress message; the `except` branch reports a send failure; the
`finally` branch removes the temp file whenever it exists.  Each network
step's success is an explicit flag of the environment. -/

/-- The fixed caption of both upload calls. -/
def CAPTION : String := "👾 Powered by @Instasave_downloader_bot"

/-- Python's `file_name.endswith(suf)`. -/
def endswith (s suf : String) : Bool :=
  (dropLit suf.data.reverse s.data.reverse).isSome

/-- Which steps of the relay's `try` block run without raising. -/
structure RelayEnv where
  getOk : Bool
  writeOk : Bool
  sendOk : Bool
  deleteOk : Bool
deriving DecidableEq

/-- A chat-protocol upload call: kind, attached file and caption. -/
inductive Upload where
  | video (file caption : String)
  | photo (file caption : String)
deriving DecidableEq

/-- Observable outcome of the relay step. -/
structure RelayResult where
  fileName : String
  uploadAttempt : Option Upload
  errorReported : Bool
  tempExistsAfter : Bool
deriving DecidableEq

/-- The `finally` branch: `if os.path.exists(file_name): os.remove(file_name)`. -/
def removeIfExists (existsNow : Bool) : Bool :=
  if existsNow then false else existsNow

/-- The relay step of `download`, over the chat id, the resolved media URL,
the environment's step outcomes and whether the temp file already existed:
`requests.get` raising leaves the file system as it was; once
`open(file_name, "wb")` runs the temp file exists; the upload call is made
(with the kind chosen by `endswith ".mp4"` and the fixed caption) exactly
when download and write completed; any raising step lands in the `except`
branch; the `finally` branch always runs last. -/
def relay (chatId : Int) (media_url : String) (env : RelayEnv)
    (tempExists0 : Bool) : RelayResult :=
  let file_name :=
    if containsLit "video".data media_url.data then
      "temp_" ++ toString chatId ++ ".mp4"
    else
      "temp_" ++ toString chatId ++ ".jpg"
  let tempAfterTry := if env.getOk then true else tempExists0
  let uploadAttempt : Option Upload :=
    if env.getOk && env.writeOk then
      some (if endswith file_name ".mp4" then .video file_name CAPTION
            else .photo file_name CAPTION)
    else none
  let raised := !(env.getOk && env.writeOk && env.sendOk && env.deleteOk)
  { fileName := file_name
    uploadAttempt := uploadAttempt
    errorReported := raised
    tempExistsAfter := removeIfExists tempAfterTry }

/-- C7: on every exit path of the relay — success, or an exception during
the fetch, the streaming write, the upload or the progress-message deletion,
whether or not the temp file pre-existed — the `finally` branch leaves no
temp file behind. -/
theorem relay_always_removes_temp (chatId : Int) (media_url : String)
    (env : RelayEnv) (t0 : Bool) :
    (relay chatId media_url env t0).tempExistsAfter = false := by
  cases hg : env.getOk <;> cases t0 <;> simp [relay, removeIfExists, hg]

theorem endswith_append_mp4 (s : String) :
    endswith (s ++ ".mp4") ".mp4" = true := by
  have h : (s ++ ".mp4").data.reverse = '4' :: 'p' :: 'm' :: '.' :: s.data.reverse := by
    rw [String.data_append, List.reverse_append]
    rfl
  simp [endswith, h, dropLit]

theorem endswith_append_jpg_ne_mp4 (s : String) :
    endswith (s ++ ".jpg") ".mp4" = false := by
  have h : (s ++ ".jpg").data.reverse = 'g' :: 'p' :: 'j' :: '.' :: s.data.reverse := by
    rw [String.data_append, List.reverse_append]
    rfl
  simp [endswith, h, dropLit]

/-- C8: the relay names the temp file `temp_<chat_id>.mp4` and uploads with
the video call exactly when `"video"` occurs in the resolved URL, and names
it `temp_<chat_id>.jpg` and uploads with the photo call otherwise; every
upload carries the fixed caption. -/
theorem relay_kind_from_video_marker (chatId : Int) (media_url : String)
    (env : RelayEnv) (t0 : Bool) :
    (containsLit "video".data media_url.data = true →
      (relay chatId media_url env t0).fileName =
        "temp_" ++ toString chatId ++ ".mp4" ∧
      ∀ up, (relay chatId media_url env t0).uploadAttempt = some up →
        up = .video ("temp_" ++ toString chatId ++ ".mp4") CAPTION) ∧
    (containsLit "video".data media_url.data = false →
      (relay chatId media_url env t0).fileName =
        "temp_" ++ toString chatId ++ ".jpg" ∧
      ∀ up, (relay chatId media_url env t0).uploadAttempt = some up →
        up = .photo ("temp_" ++ toString chatId ++ ".jpg") CAPTION) := by
  constructor
  · intro h
    refine ⟨by simp [relay, h], fun up hup => ?_⟩
    by_cases hok : env.getOk && env.writeOk
    · simp [relay, h, hok, endswith_append_mp4] at hup
      exact hup.symm
    · simp [relay, h, hok] at hup
  · intro h
    refine ⟨by simp [relay, h], fun up hup => ?_⟩
    by_cases hok : env.getOk && env.writeOk
    · simp [relay, h, hok, endswith_append_jpg_ne_mp4] at hup
      exact hup.symm
    · simp [relay, h, hok] at hup

/-- C8 witness: a video-marked URL yields the `.mp4` temp name and a
photo-kind URL the `.jpg` one, at chat id 5 with every step succeeding. -/
theorem relay_kind_from_video_marker_witness :
    (relay 5 "https://cdn.example/video.mp4" ⟨true, true, true, true⟩ false).fileName =
      "temp_" ++ toString (5 : Int) ++ ".mp4" ∧
    (relay 5 "https://cdn.example/pic.jpg" ⟨true, true, true, true⟩ false).fileName =
      "temp_" ++ toString (5 : Int) ++ ".jpg" :=
  ⟨((relay_kind_from_video_marker 5 "https://cdn.example/video.mp4"
      ⟨true, true, true, true⟩ false).1 (by decide)).1,
    ((relay_kind_from_video_marker 5 "https://cdn.example/pic.jpg"
      ⟨true, true, true, true⟩ false).2 (by decide)).1⟩

end InstaBot
